import Mathlib

set_option maxHeartbeats 1000000

/-!
Shallow embedding of `dmc/ensemble.py` (repository `fawind/run-dmc`).

Data frames are modelled row-major: a header of named, dtyped columns and a
list of rows of cell values.  Pandas/NumPy behaviours relevant to the claims
are embedded explicitly:
  - `Series.isin` membership treats NaN as equal to NaN (pandas hash-table
    membership), which our decidable equality on `Val` reproduces;
  - `np.isnan(...).any()` on a column is `Val.nan` membership;
  - NumPy broadcasting of `np.multiply` on 1-d arrays is modelled by
    `npMultiply` (equal lengths, or one side of length one, else an error);
  - the module-level random permutation used for subsampling is passed in as
    an explicit function argument.
-/

/-- A cell value of a data frame. `nan` models a missing value / NaN. -/
inductive Val where
  | nan  : Val
  | int  : Int → Val
  | num  : ℚ → Val
  | str  : String → Val
  | bool : Bool → Val
deriving DecidableEq, Repr

/-- Column dtype tag; `float` columns are the ones `np.isnan` is applied to. -/
inductive Dtype where
  | float : Dtype
  | intT  : Dtype
  | objT  : Dtype
  | boolT : Dtype
deriving DecidableEq, Repr

structure Column where
  name : String
  dtype : Dtype
deriving DecidableEq, Repr

structure Frame where
  header : List Column
  rows : List (List Val)
deriving DecidableEq, Repr

def Frame.names (f : Frame) : List String :=
  f.header.map (fun h => h.name)

/-- Look up the cell of row `r` at column `c` (first column of that name). -/
def Frame.cell (f : Frame) (r : List Val) (c : String) : Val :=
  match f.header.findIdx? (fun h => h.name == c) with
  | some i => r.getD i Val.nan
  | none => Val.nan

def Frame.colVals (f : Frame) (c : String) : List Val :=
  f.rows.map (fun r => f.cell r c)

/-- Embeds `pd.concat([f, g], axis=1)` for row-aligned frames. -/
def Frame.hconcat (f g : Frame) : Frame :=
  ⟨f.header ++ g.header, List.zipWith (fun r s => r ++ s) f.rows g.rows⟩

/-- Embeds `frame.drop(cs, axis=1)`: remove every column whose name is in `cs`. -/
def Frame.dropCols (f : Frame) (cs : List String) : Frame :=
  ⟨f.header.filter (fun h => !(cs.contains h.name)),
   f.rows.map (fun r =>
     (((f.header.zip r).filter (fun p => !(cs.contains p.1.name))).map (fun p => p.2)))⟩

def known_col (c : String) : String :=
  "known_" ++ c

/-- Embeds `add_recognition_vector(train, test, columns)`: one boolean column
`known_<c>` per tracked column `c`, true where the test value occurs among the
training column's values (`Series.isin`, with NaN matching NaN).
-/
def add_recognition_vector (train test : Frame) (columns : List String) : Frame :=
  { header := columns.map (fun c => ⟨known_col c, Dtype.boolT⟩),
    rows := test.rows.map (fun r =>
      columns.map (fun c => Val.bool (decide (test.cell r c ∈ train.colVals c)))) }

def potentially_unknown : List String :=
  ["articleID", "customerID", "voucherID", "productGroup"]

def valAsBool : Val → Bool
  | Val.bool b => b
  | _ => false

/-- The test frame with the recognition mask joined on (`pd.concat`, axis 1). -/
def testJoined (train test : Frame) : Frame :=
  test.hconcat (add_recognition_vector train test potentially_unknown)

/-- The groupby key of a joined test row: its mask-column values, in tracked
column order (the `splitters`). -/
def rowMask (train test : Frame) (r : List Val) : List Bool :=
  (add_recognition_vector train test potentially_unknown).names.map
    (fun c => valAsBool ((testJoined train test).cell r c))

/-- Lexicographic order with `false < true`: pandas `groupby` sort order on
tuples of booleans. -/
def maskLeB : List Bool → List Bool → Bool
  | [], _ => true
  | _ :: _, [] => false
  | a :: as, b :: bs => if a = b then maskLeB as bs else (a = false)

def maskLe (a b : List Bool) : Prop :=
  maskLeB a b = true

instance : DecidableRel maskLe :=
  fun a b => inferInstanceAs (Decidable (maskLeB a b = true))

/-- The distinct groupby keys, in the (sorted) order pandas `groupby` emits
groups; `OrderedDict` insertion follows this order. -/
def splitKeys (train test : Frame) : List (List Bool) :=
  List.insertionSort maskLe (((testJoined train test).rows.map (rowMask train test)).dedup)

/-- The groupby group for one mask value: the joined test rows with that key. -/
def splitGroup (train test : Frame) (mask : List Bool) : Frame :=
  ⟨(testJoined train test).header,
   (testJoined train test).rows.filter (fun r => rowMask train test r == mask)⟩

def maskKey (mask : List Bool) : String :=
  String.join ((mask.zip potentially_unknown).map (fun p => if p.1 then "k" else "u"))

def maskSpecifier (mask : List Bool) : String :=
  String.join ((mask.zip potentially_unknown).map
    (fun p => (if p.1 then "k" else "u") ++ p.2))

/-- Tracked columns whose mask position is unknown for this partition. -/
def unknownColumns (mask : List Bool) : List String :=
  ((mask.zip potentially_unknown).filter (fun p => !p.1)).map (fun p => p.2)

/-- Columns of the group that are float dtype, not the label column, and have
some NaN value in the group's rows (`np.isnan(group[col]).any()`). -/
def nanColumns (g : Frame) : List String :=
  (g.header.filter (fun h =>
    h.name != "returnQuantity" && h.dtype == Dtype.float
      && (g.colVals h.name).contains Val.nan)).map (fun h => h.name)

structure SplitRec where
  train : Frame
  test : Frame
  name : String
deriving Repr

/-- The loop body of `split` for one groupby cell. -/
def mkSplitRec (train test : Frame) (mask : List Bool) : String × SplitRec :=
  let group := splitGroup train test mask
  let splitters := (add_recognition_vector train test potentially_unknown).names
  let unknown_columns := unknownColumns mask
  let nan_columns := nanColumns group
  (maskKey mask,
   { train := train.dropCols (unknown_columns ++ nan_columns),
     test := group.dropCols (unknown_columns ++ nan_columns ++ splitters),
     name := maskSpecifier mask })

/-- Embeds `split(train, test)`: the ordered dict of partition key to record. -/
def split (train test : Frame) : List (String × SplitRec) :=
  (splitKeys train test).map (mkSplitRec train test)

instance : Inhabited Dtype := ⟨Dtype.objT⟩

instance : Inhabited Column := ⟨⟨"", Dtype.objT⟩⟩

instance : Inhabited Frame := ⟨⟨[], []⟩⟩

instance : Inhabited SplitRec := ⟨⟨⟨[], []⟩, ⟨[], []⟩, ""⟩⟩

/- A train/test pair whose test set carries an object-dtype column `note`
holding a missing value; all tracked identifiers are known. -/
def trainEx3 : Frame :=
  ⟨[⟨"articleID", Dtype.intT⟩, ⟨"customerID", Dtype.intT⟩, ⟨"voucherID", Dtype.intT⟩,
    ⟨"productGroup", Dtype.intT⟩, ⟨"note", Dtype.objT⟩, ⟨"returnQuantity", Dtype.float⟩],
   [[Val.int 1, Val.int 1, Val.int 1, Val.int 1, Val.str "a", Val.num 0]]⟩

def testEx3 : Frame :=
  ⟨[⟨"articleID", Dtype.intT⟩, ⟨"customerID", Dtype.intT⟩, ⟨"voucherID", Dtype.intT⟩,
    ⟨"productGroup", Dtype.intT⟩, ⟨"note", Dtype.objT⟩, ⟨"returnQuantity", Dtype.float⟩],
   [[Val.int 1, Val.int 1, Val.int 1, Val.int 1, Val.nan, Val.num 0]]⟩

def trainEx5 : Frame :=
  ⟨[⟨"articleID", Dtype.float⟩], [[Val.nan]]⟩

def testEx5 : Frame :=
  ⟨[⟨"articleID", Dtype.float⟩], [[Val.nan]]⟩

def trainEx5w : Frame :=
  ⟨[⟨"articleID", Dtype.intT⟩], [[Val.int 1], [Val.int 2]]⟩

def testEx5w : Frame :=
  ⟨[⟨"articleID", Dtype.intT⟩], [[Val.int 3]]⟩

/- The external collaborators (feature transformer, precision metric,
classifiers) are opaque to the core: they are modelled as function arguments.
A classifier is constructed from a transformed (features, target) pair; it is
callable on test features and may expose `predict_proba`, whose failure
(capability absent or raising) is an `Except.error`. -/
structure Classifier where
  call : List (List ℚ) → List Int
  predict_proba : List (List ℚ) → Except String (List (List ℚ))

structure SplitConfig where
  sample : Option Nat
  scaler : Option String
  ignore_features : Option (List String)
  classifier : List (List ℚ) → List Val → Classifier

/-- A split record after `_enrich_splits` merged the per-key parameters in. -/
structure EnrichedSplit where
  train : Frame
  test : Frame
  name : String
  sample : Option Nat
  scaler : Option String
  ignore_features : Option (List String)
  classifier : List (List ℚ) → List Val → Classifier

def mergeConfig (r : SplitRec) (c : SplitConfig) : EnrichedSplit :=
  { train := r.train, test := r.test, name := r.name,
    sample := c.sample, scaler := c.scaler,
    ignore_features := c.ignore_features, classifier := c.classifier }

/-- Embeds `_enrich_splits`: merge `params[k]` into each split; a key missing from
the configuration raises (`KeyError`), modelled by `none`; no default is
substituted. -/
def _enrich_splits : List (String × SplitRec) → List (String × SplitConfig) →
    Option (List (String × EnrichedSplit))
  | [], _ => some []
  | p :: ps, params =>
    match params.lookup p.1 with
    | none => none
    | some c =>
      match _enrich_splits ps params with
      | none => none
      | some rest => some ((p.1, mergeConfig p.2 c) :: rest)

/-- Python truthiness of the `sample` field: `if splinter['sample']:` is
false for both `None` and `0`. -/
def pyTruthy : Option Nat → Bool
  | none => false
  | some n => n != 0

/-- Embeds `_subsample(train, size)`: `size = min(len(train), size)`, reindex by
a random permutation of the index and take the first `size` rows.  The global
random permutation is passed in as `perm`. -/
def _subsample (perm : List (List Val) → List (List Val))
    (train : List (List Val)) (size : Nat) : List (List Val) :=
  (perm train).take (min train.length size)

/-- Embeds `pd.concat([f, g])` for frames sharing a schema (row-wise concat). -/
def Frame.vconcat (f g : Frame) : Frame :=
  ⟨f.header, f.rows ++ g.rows⟩

/-- The per-partition target frame: a single `returnQuantity` column indexed
like the partition's test frame, later populated with `prediction` and
`confidence`. -/
structure TargetFrame where
  returnQuantity : List Val
  prediction : List Int
  confidence : List Val
deriving Repr

/-- Embeds `transform_target_frame(test)`: select the `returnQuantity` column. -/
def transform_target_frame (test : Frame) : TargetFrame :=
  { returnQuantity := test.colVals "returnQuantity", prediction := [], confidence := [] }

/-- The training frame actually fed to the transform: subsampled only when the
configured `sample` is truthy. -/
def sampledTrain (perm : List (List Val) → List (List Val)) (s : EnrichedSplit) : Frame :=
  if pyTruthy s.sample then
    ⟨s.train.header, _subsample perm s.train.rows (s.sample.getD 0)⟩
  else s.train

structure TransformedSplit where
  trainX : List (List ℚ)
  trainY : List Val
  testX : List (List ℚ)
  testY : List Val
  target : TargetFrame
  name : String
  classifier : List (List ℚ) → List Val → Classifier

/-- Embeds `_transform_split`: optionally subsample, concatenate train and test,
invoke the external feature transformer `tf` once on the concatenation, and
slice the result back by the training offset. -/
def _transform_split
    (tf : Frame → Bool → Option String → Option (List String) → List (List ℚ) × List Val)
    (perm : List (List Val) → List (List Val)) (s : EnrichedSplit) : TransformedSplit :=
  let train := sampledTrain perm s
  let offset := train.rows.length
  let data := train.vconcat s.test
  let XY := tf data true s.scaler s.ignore_features
  { target := transform_target_frame s.test,
    trainX := XY.1.take offset, trainY := XY.2.take offset,
    testX := XY.1.drop offset, testY := XY.2.drop offset,
    name := s.name, classifier := s.classifier }

/-- Embeds `np.max(probs, 1)` for one row of class probabilities. -/
def rowMaxQ : List ℚ → ℚ
  | [] => 0
  | h :: t => t.foldl max h

/-- Embeds `_classify_split`: train the classifier, predict, try `predict_proba`
(max class probability per row); on failure log and record NaN confidence for
every row; always populate prediction and the carried-through true label.
The returned list is the log output. -/
def _classify_split (s : TransformedSplit) : TransformedSplit × List String :=
  let clf := s.classifier s.trainX s.trainY
  let ypr := clf.call s.testX
  let n := s.target.returnQuantity.length
  match clf.predict_proba s.testX with
  | Except.ok probs =>
      ({ s with target := { s.target with
          confidence := probs.map (fun r => Val.num (rowMaxQ r)),
          prediction := ypr,
          returnQuantity := s.testY } }, [])
  | Except.error e =>
      ({ s with target := { s.target with
          confidence := List.replicate n Val.nan,
          prediction := ypr,
          returnQuantity := s.testY } },
       ["Classifier offers no predict_proba method " ++ e])

/-- NumPy elementwise multiplication of 1-d arrays with broadcasting: equal
lengths multiply pointwise; a length-one operand broadcasts; anything else
raises a shape mismatch. -/
def npMultiply (a b : List ℚ) : Except String (List ℚ) :=
  if a.length = b.length then Except.ok (List.zipWith (fun x y => x * y) a b)
  else if a.length = 1 then Except.ok (b.map (fun y => a.headI * y))
  else if b.length = 1 then Except.ok (a.map (fun x => x * b.headI))
  else Except.error "operands could not be broadcast together"

/-- What `report` prints: one line (key, precision, size) per scored
partition, the overall weighted figure if any partition was scored, and
whether the global no-evaluation-labels notice was printed. -/
structure ReportOut where
  lines : List (String × ℚ × Nat)
  overall : Option ℚ
  noLabelsNotice : Bool
deriving Repr, DecidableEq

/-- Embeds `ECEnsemble.report`: skip partitions whose `returnQuantity` has any NaN;
collect the scored precisions; divide every partition's target length by the
original test size; if any precision was collected print the sum of the
elementwise product of the scored precisions with the full weight vector. -/
def report (precision : List Val → List Int → ℚ) (test_size : Nat)
    (splits : List (String × TransformedSplit)) : Except String ReportOut :=
  let scored := splits.filter (fun p => !(p.2.target.returnQuantity.contains Val.nan))
  let precs := scored.map (fun p => precision p.2.target.returnQuantity p.2.target.prediction)
  let lines := scored.map (fun p =>
    (p.1, precision p.2.target.returnQuantity p.2.target.prediction,
     p.2.target.returnQuantity.length))
  let partials := splits.map (fun p =>
    ((p.2.target.returnQuantity.length : ℚ) / (test_size : ℚ)))
  if precs.isEmpty then Except.ok ⟨lines, none, true⟩
  else (npMultiply precs partials).map (fun m => ⟨lines, some m.sum, false⟩)

/-- The ensemble object state as it stands after transform/classify: the
stored original test frame, the memoised original test size, and the ordered
splits dict. -/
structure Ensemble where
  test : Frame
  test_size : Nat
  splits : List (String × TransformedSplit)

/-- Embeds `frame[c] = vals`: replace the column's values if the name exists,
otherwise append a new column on the right (pandas column assignment).
Alignment of the assigned values is modelled positionally. -/
def Frame.setCol (f : Frame) (c : String) (dt : Dtype) (vals : List Val) : Frame :=
  match f.header.findIdx? (fun h => h.name == c) with
  | some i => ⟨f.header, f.rows.mapIdx (fun j r => r.set i (vals.getD j Val.nan))⟩
  | none => ⟨f.header ++ [⟨c, dt⟩], f.rows.mapIdx (fun j r => r ++ [vals.getD j Val.nan])⟩

def Frame.colDtype (f : Frame) (c : String) : Dtype :=
  match f.header.find? (fun h => h.name == c) with
  | some h => h.dtype
  | none => Dtype.float

/-- Embeds `pd.DataFrame(test, test.index, columns=cs)`: reindex to the fixed column
list (missing columns become NaN-filled). -/
def Frame.selectCols (f : Frame) (cs : List String) : Frame :=
  ⟨cs.map (fun c => ⟨c, f.colDtype c⟩),
   f.rows.map (fun r => cs.map (fun c => f.cell r c))⟩

def dump_columns : List String :=
  ["orderID", "articleID", "colorCode", "sizeCode", "quantity", "confidence", "prediction"]

/-- Embeds `ECEnsemble.dump_results`: `test = self.test` aliases the stored frame, so
the prediction/confidence column assignments land on the ensemble's stored
original test frame.  Predictions are integer-cast (`astype(int)`; they are
integers in the model already, stored as `Val.int`).  Index alignment of the
concatenated target frames is modelled positionally.  The first component is
the frame written to `data/predicted.csv`; the second is the post-call object
state. -/
def dump_results (e : Ensemble) : Frame × Ensemble :=
  let predicted_prediction : List Int := (e.splits.map (fun p => p.2.target.prediction)).flatten
  let predicted_confidence : List Val := (e.splits.map (fun p => p.2.target.confidence)).flatten
  let test := (e.test.setCol "prediction" Dtype.intT
      (predicted_prediction.map (fun n => Val.int n))).setCol
      "confidence" Dtype.float predicted_confidence
  let res := test.selectCols dump_columns
  (res, { e with test := test })

/- Concrete material: a trivial classifier, feature transformer and identity
permutation for witnesses and counterexamples. -/
def constClassifier : Classifier :=
  ⟨fun X => X.map (fun _ => 0), fun _ => Except.error "no attribute"⟩

def tfEx : Frame → Bool → Option String → Option (List String) → List (List ℚ) × List Val :=
  fun d _ _ _ => (d.rows.map (fun _ => [0]), d.rows.map (fun r => d.cell r "returnQuantity"))

def trainEx4 : Frame :=
  ⟨[⟨"articleID", Dtype.intT⟩, ⟨"returnQuantity", Dtype.float⟩],
   [[Val.int 1, Val.num 0], [Val.int 2, Val.num 1]]⟩

def testEx4 : Frame :=
  ⟨[⟨"articleID", Dtype.intT⟩, ⟨"returnQuantity", Dtype.float⟩],
   [[Val.int 1, Val.num 0]]⟩

def splitEx4 : EnrichedSplit :=
  { train := trainEx4, test := testEx4, name := "karticleID",
    sample := some 0, scaler := none, ignore_features := none,
    classifier := fun _ _ => constClassifier }

def splitRecEx : SplitRec := ⟨⟨[], []⟩, ⟨[], []⟩, "empty"⟩

def classifyEx : TransformedSplit :=
  { trainX := [[0]], trainY := [Val.num 0],
    testX := [[1], [2]], testY := [Val.num 0, Val.num 1],
    target := { returnQuantity := [Val.num 0, Val.num 1], prediction := [],
                confidence := [] },
    name := "kkkk", classifier := fun _ _ => constClassifier }

def mkTargetSplit (rQ : List Val) (pred : List Int) : TransformedSplit :=
  { trainX := [], trainY := [], testX := [], testY := rQ,
    target := { returnQuantity := rQ, prediction := pred, confidence := [] },
    name := "", classifier := fun _ _ => constClassifier }

/-- A concrete precision metric: the fraction of predictions matching the true
label. -/
def precisionEx (t : List Val) (p : List Int) : ℚ :=
  ((((t.zip p).countP (fun q => q.1 == Val.int q.2)) : ℕ) : ℚ) / ((t.length : ℕ) : ℚ)

def splitA1 : TransformedSplit :=
  mkTargetSplit [Val.nan, Val.nan, Val.nan, Val.nan, Val.nan, Val.nan] [0, 0, 0, 0, 0, 0]

def splitB1 : TransformedSplit :=
  mkTargetSplit [Val.int 0, Val.int 0, Val.int 1, Val.int 1] [0, 0, 0, 0]

def splitA2 : TransformedSplit :=
  mkTargetSplit [Val.nan, Val.nan, Val.nan] [0, 0, 0]

def splitB2 : TransformedSplit :=
  mkTargetSplit [Val.int 0, Val.int 0, Val.int 0, Val.int 0, Val.int 0, Val.int 0, Val.int 0]
    [0, 0, 0, 0, 0, 0, 0]

def eEx10 : Ensemble :=
  { test := ⟨[⟨"orderID", Dtype.intT⟩], [[Val.int 1]]⟩,
    test_size := 1,
    splits := [("kkkk", mkTargetSplit [Val.int 0] [5])] }

/- Generic fact about grouping: filtering a list by each of a duplicate-free
family of keys that covers every element, and flattening, permutes the list. -/
theorem flatten_filter_key_perm {α κ : Type} [BEq κ] [LawfulBEq κ] (key : α → κ) :
    ∀ (ks : List κ) (l : List α), ks.Nodup → (∀ a ∈ l, key a ∈ ks) →
      ((ks.map (fun k => l.filter (fun a => key a == k))).flatten).Perm l := by
  intro ks
  induction ks with
  | nil =>
    intro l _ h
    cases l with
    | nil => simp
    | cons a t => exact absurd (h a (by simp)) (by simp)
  | cons k ks ih =>
    intro l hnd h
    have hk : k ∉ ks := (List.nodup_cons.mp hnd).1
    have hnd' : ks.Nodup := (List.nodup_cons.mp hnd).2
    have hmap : ∀ k' ∈ ks,
        l.filter (fun a => key a == k')
          = (l.filter (fun a => !(key a == k))).filter (fun a => key a == k') := by
      intro k' hk'
      rw [List.filter_filter]
      apply List.filter_congr
      intro a _
      have hne : ¬ k' = k := fun hh => hk (hh ▸ hk')
      by_cases hak : key a = k'
      · simp [hak, hne]
      · have hf : (key a == k') = false := by simp [hak]
        simp [hf]
    have hcov : ∀ a ∈ l.filter (fun a => !(key a == k)), key a ∈ ks := by
      intro a ha
      have hmem := List.mem_filter.mp ha
      have hne : ¬(key a = k) := by
        intro hcontra
        rw [hcontra] at hmem
        simp at hmem
      have hin := h a hmem.1
      simp only [List.mem_cons] at hin
      exact hin.resolve_left hne
    have hih := ih (l.filter (fun a => !(key a == k))) hnd' hcov
    have h1 : ((k :: ks).map (fun k => l.filter (fun a => key a == k))).flatten
        = l.filter (fun a => key a == k)
          ++ ((ks.map (fun k' =>
              (l.filter (fun a => !(key a == k))).filter (fun a => key a == k'))).flatten) := by
      simp [List.map_congr_left hmap]
    rw [h1]
    exact (List.Perm.append_left _ hih).trans (List.filter_append_perm _ l)

theorem Frame.rows_length_dropCols (f : Frame) (cs : List String) :
    (f.dropCols cs).rows.length = f.rows.length := by
  simp [Frame.dropCols]

theorem testJoined_rows_length (train test : Frame) :
    (testJoined train test).rows.length = test.rows.length := by
  simp [testJoined, Frame.hconcat, add_recognition_vector]

theorem splitKeys_nodup (train test : Frame) : (splitKeys train test).Nodup :=
  (List.perm_insertionSort maskLe _).nodup_iff.mpr (List.nodup_dedup _)

theorem mem_splitKeys (train test : Frame) {r : List Val}
    (hr : r ∈ (testJoined train test).rows) :
    rowMask train test r ∈ splitKeys train test := by
  have h1 : rowMask train test r ∈ (testJoined train test).rows.map (rowMask train test) :=
    List.mem_map_of_mem _ hr
  exact (List.perm_insertionSort maskLe _).mem_iff.mpr (List.mem_dedup.mpr h1)

/-- C2: the partitions emitted by `split` form a partition of the test set's
rows: the groupby groups flattened together are a permutation of the joined
test rows (no duplication, no omission, each row in exactly one group since the
keys are duplicate-free), each emitted partition's test frame has exactly its
group's row count, and the emitted row counts sum to the original test set
size. -/
theorem split_partitions_test_rows (train test : Frame) :
    (((splitKeys train test).map
        (fun m => (splitGroup train test m).rows)).flatten).Perm
      (testJoined train test).rows ∧
    (splitKeys train test).Nodup ∧
    ((split train test).map (fun p => p.2.test.rows.length)
      = (splitKeys train test).map (fun m => (splitGroup train test m).rows.length)) ∧
    ((split train test).map (fun p => p.2.test.rows.length)).sum = test.rows.length := by
  have hperm : (((splitKeys train test).map
      (fun m => (splitGroup train test m).rows)).flatten).Perm
        (testJoined train test).rows := by
    have := flatten_filter_key_perm (rowMask train test) (splitKeys train test)
      (testJoined train test).rows (splitKeys_nodup train test)
      (fun a ha => mem_splitKeys train test ha)
    simpa [splitGroup] using this
  have hlens : (split train test).map (fun p => p.2.test.rows.length)
      = (splitKeys train test).map (fun m => (splitGroup train test m).rows.length) := by
    simp [split, mkSplitRec, Frame.rows_length_dropCols, List.map_map, Function.comp]
  refine ⟨hperm, splitKeys_nodup train test, hlens, ?_⟩
  have hjoin := hperm.length_eq
  rw [List.length_flatten, List.map_map] at hjoin
  rw [hlens]
  rw [testJoined_rows_length] at hjoin
  simpa [Function.comp] using hjoin

theorem mem_names_dropCols (f : Frame) (cs : List String) (c : String) :
    c ∈ (f.dropCols cs).names ↔ c ∈ f.names ∧ c ∉ cs := by
  simp only [Frame.dropCols, Frame.names, List.mem_map, List.mem_filter]
  constructor
  · rintro ⟨h, ⟨hmem, hnotin⟩, rfl⟩
    refine ⟨⟨h, hmem, rfl⟩, ?_⟩
    simpa using hnotin
  · rintro ⟨⟨h, hmem, rfl⟩, hnotin⟩
    exact ⟨h, ⟨hmem, by simpa using hnotin⟩, rfl⟩

theorem mem_unknownColumns (mask : List Bool) (c : String) :
    c ∈ unknownColumns mask ↔ (false, c) ∈ mask.zip potentially_unknown := by
  simp only [unknownColumns, List.mem_map, List.mem_filter]
  constructor
  · rintro ⟨⟨b, c'⟩, ⟨hmem, hb⟩, rfl⟩
    cases b with
    | false => exact hmem
    | true => simp at hb
  · intro h
    exact ⟨(false, c), ⟨h, rfl⟩, rfl⟩

theorem mem_nanColumns (g : Frame) (c : String) :
    c ∈ nanColumns g ↔
      c ≠ "returnQuantity" ∧ Val.nan ∈ g.colVals c ∧
        ∃ h ∈ g.header, h.name = c ∧ h.dtype = Dtype.float := by
  simp only [nanColumns, List.mem_map, List.mem_filter, Bool.and_eq_true, bne_iff_ne,
    beq_iff_eq]
  constructor
  · rintro ⟨h, ⟨hmem, ⟨hname, hdt⟩, hnan⟩, rfl⟩
    refine ⟨hname, ?_, h, hmem, rfl, hdt⟩
    simpa using hnan
  · rintro ⟨hname, hnan, h, hmem, rfl, hdt⟩
    exact ⟨h, ⟨hmem, ⟨hname, hdt⟩, by simpa using hnan⟩, rfl⟩

/-- C3 (amended): for every partition, a column is retained in the pruned
train frame exactly when it is a train column and is neither a tracked column
marked unknown in the partition's mask nor a float-dtype feature column (other
than `returnQuantity`) with a NaN among the partition's test rows; the same
dropped set governs the test copy, which additionally drops the mask columns. -/
theorem split_retained_columns (train test : Frame) (mask : List Bool) (c : String) :
    (c ∈ (mkSplitRec train test mask).2.train.names ↔
      c ∈ train.names ∧
        ¬((false, c) ∈ mask.zip potentially_unknown ∨
          (c ≠ "returnQuantity" ∧ Val.nan ∈ (splitGroup train test mask).colVals c ∧
            ∃ h ∈ (splitGroup train test mask).header,
              h.name = c ∧ h.dtype = Dtype.float))) ∧
    (c ∈ (mkSplitRec train test mask).2.test.names ↔
      c ∈ (splitGroup train test mask).names ∧
        ¬((false, c) ∈ mask.zip potentially_unknown ∨
          (c ≠ "returnQuantity" ∧ Val.nan ∈ (splitGroup train test mask).colVals c ∧
            ∃ h ∈ (splitGroup train test mask).header,
              h.name = c ∧ h.dtype = Dtype.float)) ∧
        c ∉ (add_recognition_vector train test potentially_unknown).names) := by
  have hu := mem_unknownColumns mask c
  have hn := mem_nanColumns (splitGroup train test mask) c
  constructor
  · simp only [mkSplitRec]
    rw [mem_names_dropCols, List.mem_append, hu, hn]
  · simp only [mkSplitRec]
    rw [mem_names_dropCols, List.mem_append, List.mem_append, hu, hn]
    simp only [not_or, and_assoc]

/-- C3 counterexample: `split` emits a single partition whose `note` column has
a missing value in the partition's test rows, is not the label column, and yet
is retained in the pruned test frame (the code only drops float-dtype columns,
not every column with a missing value). -/
theorem split_retains_nan_object_column :
    (split trainEx3 testEx3).map (fun p => p.1) = ["kkkk"] ∧
    "note" ∈ ((split trainEx3 testEx3).headI).2.test.names ∧
    Val.nan ∈ ((split trainEx3 testEx3).headI).2.test.colVals "note" ∧
    "note" ≠ "returnQuantity" := by decide

theorem getD_map_of_lt {α β : Type} (f : α → β) (l : List α) (j : Nat)
    (hj : j < l.length) (d : β) (d' : α) :
    (l.map f).getD j d = f (l.getD j d') := by
  rw [List.getD_eq_getElem?_getD, List.getD_eq_getElem?_getD,
    List.getElem?_eq_getElem (by simpa using hj), List.getElem?_eq_getElem hj]
  simp

/-- C5 (amended): the knownness detector emits one `known_`-prefixed boolean
column per tracked column, row-aligned with the test frame; the entry for test
row `j` and tracked column `i` is true exactly when that row's value occurs
among the training column's values, where NaN matches NaN (pandas `isin`): in
particular a NaN test value is marked known precisely when the training column
itself contains a NaN. -/
theorem add_recognition_vector_spec (train test : Frame) (columns : List String)
    (i j : Nat) (hi : i < columns.length) (hj : j < test.rows.length) :
    (add_recognition_vector train test columns).names = columns.map known_col ∧
    (add_recognition_vector train test columns).rows.length = test.rows.length ∧
    (((add_recognition_vector train test columns).rows.getD j []).getD i Val.nan
      = Val.bool (decide
          (test.cell (test.rows.getD j []) (columns.getD i "") ∈
            train.colVals (columns.getD i "")))) ∧
    (test.cell (test.rows.getD j []) (columns.getD i "") = Val.nan →
      ((((add_recognition_vector train test columns).rows.getD j []).getD i Val.nan
          = Val.bool true)
        ↔ Val.nan ∈ train.colVals (columns.getD i ""))) := by
  have hval : ((add_recognition_vector train test columns).rows.getD j []).getD i Val.nan
      = Val.bool (decide
          (test.cell (test.rows.getD j []) (columns.getD i "") ∈
            train.colVals (columns.getD i ""))) := by
    simp only [add_recognition_vector]
    rw [getD_map_of_lt _ _ _ hj _ ([] : List Val)]
    rw [getD_map_of_lt _ _ _ hi _ ("" : String)]
  refine ⟨?_, ?_, hval, ?_⟩
  · simp [add_recognition_vector, Frame.names, List.map_map, Function.comp]
  · simp [add_recognition_vector]
  · intro hnan
    rw [hval, hnan]
    constructor
    · intro h
      exact of_decide_eq_true (Val.bool.inj h)
    · intro h
      exact congrArg Val.bool (decide_eq_true h)

/-- C5 counterexample: a NaN test value is marked known when the training
column contains NaN (pandas `isin` matches NaN), contradicting the claim that
a NaN test value is never marked known. -/
theorem recognition_marks_nan_known :
    testEx5.cell [Val.nan] "articleID" = Val.nan ∧
    trainEx5.colVals "articleID" = [Val.nan] ∧
    (add_recognition_vector trainEx5 testEx5 ["articleID"]).rows
      = [[Val.bool true]] := by decide

/-- Witness for the C5 theorem at a concrete input. -/
theorem add_recognition_vector_spec_witness :
    (0 < (["articleID"] : List String).length ∧ 0 < testEx5w.rows.length) ∧
    ((add_recognition_vector trainEx5w testEx5w ["articleID"]).names
        = ["articleID"].map known_col ∧
      (add_recognition_vector trainEx5w testEx5w ["articleID"]).rows.length
        = testEx5w.rows.length ∧
      (((add_recognition_vector trainEx5w testEx5w ["articleID"]).rows.getD 0 []).getD 0 Val.nan
        = Val.bool (decide
            (testEx5w.cell (testEx5w.rows.getD 0 []) ((["articleID"] : List String).getD 0 "") ∈
              trainEx5w.colVals ((["articleID"] : List String).getD 0 "")))) ∧
      (testEx5w.cell (testEx5w.rows.getD 0 []) ((["articleID"] : List String).getD 0 "") = Val.nan →
        ((((add_recognition_vector trainEx5w testEx5w ["articleID"]).rows.getD 0 []).getD 0 Val.nan
            = Val.bool true)
          ↔ Val.nan ∈ trainEx5w.colVals ((["articleID"] : List String).getD 0 "")))) :=
  ⟨⟨by decide, by decide⟩,
   add_recognition_vector_spec trainEx5w testEx5w ["articleID"] 0 0 (by decide) (by decide)⟩

theorem transform_split_trainX_length
    (tf : Frame → Bool → Option String → Option (List String) → List (List ℚ) × List Val)
    (perm : List (List Val) → List (List Val)) (s : EnrichedSplit)
    (htf : ∀ d b sc ig, (tf d b sc ig).1.length = d.rows.length) :
    (_transform_split tf perm s).trainX.length = (sampledTrain perm s).rows.length := by
  simp only [_transform_split]
  rw [List.length_take, htf]
  simp only [Frame.vconcat, List.length_append]
  omega

theorem sampledTrain_rows_length_of_some
    (perm : List (List Val) → List (List Val)) (s : EnrichedSplit) (n : Nat)
    (hperm : ∀ l, (perm l).length = l.length)
    (hn : s.sample = some n) (hpos : 0 < n) :
    (sampledTrain perm s).rows.length = min s.train.rows.length n := by
  have ht : pyTruthy s.sample = true := by
    rw [hn]
    simpa [pyTruthy] using Nat.pos_iff_ne_zero.mp hpos
  simp only [sampledTrain, ht, if_pos]
  simp only [_subsample, hn, List.length_take, hperm, Option.getD_some]
  omega

theorem sampledTrain_rows_length_of_falsy
    (perm : List (List Val) → List (List Val)) (s : EnrichedSplit)
    (h : s.sample = none ∨ s.sample = some 0) :
    (sampledTrain perm s).rows.length = s.train.rows.length := by
  have ht : pyTruthy s.sample = false := by
    rcases h with h | h <;> simp [pyTruthy, h]
  simp [sampledTrain, ht]

/-- C4 (amended): when a positive sample size `n` is configured, the training
frame fed to the transform has exactly `min(len(train), n)` rows, drawn
without replacement (a sublist of a permutation of the training rows); a
configured size `≥ len(train)` therefore keeps the full row count.  A
configured size of `0` (like `None`) is falsy, so the subsampling step is
skipped entirely and the training frame keeps its full original row count —
it does not become empty. -/
theorem transform_split_sampling
    (tf : Frame → Bool → Option String → Option (List String) → List (List ℚ) × List Val)
    (perm : List (List Val) → List (List Val)) (s : EnrichedSplit)
    (hperm : ∀ l, (perm l).length = l.length)
    (htf : ∀ d b sc ig, (tf d b sc ig).1.length = d.rows.length) :
    (∀ n, s.sample = some n → 0 < n →
      (_transform_split tf perm s).trainX.length = min s.train.rows.length n) ∧
    (∀ n, s.sample = some n → 0 < n → s.train.rows.length ≤ n →
      (_transform_split tf perm s).trainX.length = s.train.rows.length) ∧
    ((s.sample = none ∨ s.sample = some 0) →
      (_transform_split tf perm s).trainX.length = s.train.rows.length) ∧
    (∀ size, (_subsample perm s.train.rows size).Sublist (perm s.train.rows)) := by
  refine ⟨?_, ?_, ?_, ?_⟩
  · intro n hn hpos
    rw [transform_split_trainX_length tf perm s htf,
      sampledTrain_rows_length_of_some perm s n hperm hn hpos]
  · intro n hn hpos hle
    rw [transform_split_trainX_length tf perm s htf,
      sampledTrain_rows_length_of_some perm s n hperm hn hpos]
    omega
  · intro h
    rw [transform_split_trainX_length tf perm s htf,
      sampledTrain_rows_length_of_falsy perm s h]
  · intro size
    exact List.take_sublist _ _

/-- C4 counterexample: with a configured sample size of `0` and a two-row
training frame, the training frame used after the transform step still has
both rows — not zero rows as the claim asserts. -/
theorem transform_split_sample_zero_keeps_rows :
    splitEx4.sample = some 0 ∧ splitEx4.train.rows.length = 2 ∧
    (_transform_split tfEx id splitEx4).trainX.length = 2 := by decide

/-- Witness applying the C4 theorem at a concrete input. -/
theorem transform_split_sampling_witness :
    ((some 2 : Option Nat) = some 2 ∧ 0 < 2 ∧
      ((splitEx4.sample = none ∨ splitEx4.sample = some 0))) ∧
    (_transform_split tfEx id
        { splitEx4 with sample := some 2 }).trainX.length
      = min { splitEx4 with sample := some 2 }.train.rows.length 2 ∧
    (_transform_split tfEx id splitEx4).trainX.length = splitEx4.train.rows.length :=
  ⟨⟨rfl, by decide, Or.inr rfl⟩,
   (transform_split_sampling tfEx id { splitEx4 with sample := some 2 }
      (fun l => rfl) (fun d b sc ig => by simp [tfEx])).1 2 rfl (by decide),
   (transform_split_sampling tfEx id splitEx4
      (fun l => rfl) (fun d b sc ig => by simp [tfEx])).2.2.1 (Or.inr rfl)⟩

/-- C9: the transform step feeds the concatenation of the (possibly
subsampled) training frame and the test frame to the feature transformer once,
and slices the combined feature matrix and target vector back by position at
the training offset: train slice `[0:offset]`, test slice `[offset:]`.  When
the transformer preserves row count, the test slice has exactly as many rows
as the partition's test frame. -/
theorem transform_split_concat_slices
    (tf : Frame → Bool → Option String → Option (List String) → List (List ℚ) × List Val)
    (perm : List (List Val) → List (List Val)) (s : EnrichedSplit)
    (htfX : ∀ d b sc ig, (tf d b sc ig).1.length = d.rows.length)
    (htfY : ∀ d b sc ig, (tf d b sc ig).2.length = d.rows.length) :
    ((_transform_split tf perm s).trainX ++ (_transform_split tf perm s).testX
      = (tf ((sampledTrain perm s).vconcat s.test) true s.scaler s.ignore_features).1) ∧
    ((_transform_split tf perm s).trainY ++ (_transform_split tf perm s).testY
      = (tf ((sampledTrain perm s).vconcat s.test) true s.scaler s.ignore_features).2) ∧
    (((sampledTrain perm s).vconcat s.test).rows
      = (sampledTrain perm s).rows ++ s.test.rows) ∧
    ((_transform_split tf perm s).trainX.length = (sampledTrain perm s).rows.length) ∧
    ((_transform_split tf perm s).testX.length = s.test.rows.length) ∧
    ((_transform_split tf perm s).testY.length = s.test.rows.length) := by
  refine ⟨?_, ?_, rfl, transform_split_trainX_length tf perm s htfX, ?_, ?_⟩
  · simp [_transform_split]
  · simp [_transform_split]
  · simp only [_transform_split]
    rw [List.length_drop, htfX]
    simp only [Frame.vconcat, List.length_append]
    omega
  · simp only [_transform_split]
    rw [List.length_drop, htfY]
    simp only [Frame.vconcat, List.length_append]
    omega

/-- Witness applying the C9 theorem at a concrete input. -/
theorem transform_split_concat_slices_witness :
    ((_transform_split tfEx id splitEx4).trainX ++ (_transform_split tfEx id splitEx4).testX
      = (tfEx ((sampledTrain id splitEx4).vconcat splitEx4.test) true splitEx4.scaler
          splitEx4.ignore_features).1) ∧
    ((_transform_split tfEx id splitEx4).trainY ++ (_transform_split tfEx id splitEx4).testY
      = (tfEx ((sampledTrain id splitEx4).vconcat splitEx4.test) true splitEx4.scaler
          splitEx4.ignore_features).2) ∧
    (((sampledTrain id splitEx4).vconcat splitEx4.test).rows
      = (sampledTrain id splitEx4).rows ++ splitEx4.test.rows) ∧
    ((_transform_split tfEx id splitEx4).trainX.length
      = (sampledTrain id splitEx4).rows.length) ∧
    ((_transform_split tfEx id splitEx4).testX.length = splitEx4.test.rows.length) ∧
    ((_transform_split tfEx id splitEx4).testY.length = splitEx4.test.rows.length) :=
  transform_split_concat_slices tfEx id splitEx4
    (fun d b sc ig => by simp [tfEx]) (fun d b sc ig => by simp [tfEx])

/-- C7: if a key present in the split mapping has no entry in the
configuration mapping, configuration merging fails (the `KeyError` is modelled
by `none`); no default parameters are substituted. -/
theorem enrich_splits_missing_key_fails
    (splits : List (String × SplitRec)) (params : List (String × SplitConfig))
    (k : String) (r : SplitRec) (hmem : (k, r) ∈ splits)
    (hmiss : params.lookup k = none) :
    _enrich_splits splits params = none := by
  induction splits with
  | nil => cases hmem
  | cons p ps ih =>
    rcases List.mem_cons.mp hmem with h | h
    · subst h
      simp [_enrich_splits, hmiss]
    · cases hl : params.lookup p.1 with
      | none => simp [_enrich_splits, hl]
      | some c => simp [_enrich_splits, hl, ih h]

/-- Witness applying the C7 theorem at a concrete input: a split keyed
`kkkk` with an empty configuration mapping. -/
theorem enrich_splits_missing_key_fails_witness :
    _enrich_splits [("kkkk", splitRecEx)] [] = none :=
  enrich_splits_missing_key_fails [("kkkk", splitRecEx)] [] "kkkk" splitRecEx
    (List.mem_cons_self _ _) rfl

/-- C8: when `predict_proba` fails (capability absent or raising),
classification of the partition still completes: confidence is NaN for every
row of the partition's target frame, the failure is logged, and the prediction
and true-label columns are still populated. -/
theorem classify_split_proba_failure (s : TransformedSplit) (e : String)
    (hfail : (s.classifier s.trainX s.trainY).predict_proba s.testX = Except.error e) :
    ((_classify_split s).1.target.confidence
        = List.replicate s.target.returnQuantity.length Val.nan) ∧
    ((_classify_split s).1.target.prediction
        = (s.classifier s.trainX s.trainY).call s.testX) ∧
    ((_classify_split s).1.target.returnQuantity = s.testY) ∧
    ((_classify_split s).2
        = ["Classifier offers no predict_proba method " ++ e]) := by
  simp [_classify_split, hfail]

/-- Witness applying the C8 theorem at a concrete input whose classifier has
no usable `predict_proba`. -/
theorem classify_split_proba_failure_witness :
    ((_classify_split classifyEx).1.target.confidence
        = List.replicate classifyEx.target.returnQuantity.length Val.nan) ∧
    ((_classify_split classifyEx).1.target.prediction
        = (classifyEx.classifier classifyEx.trainX classifyEx.trainY).call classifyEx.testX) ∧
    ((_classify_split classifyEx).1.target.returnQuantity = classifyEx.testY) ∧
    ((_classify_split classifyEx).2
        = ["Classifier offers no predict_proba method " ++ "no attribute"]) :=
  classify_split_proba_failure classifyEx "no attribute" rfl

theorem isEmpty_map {α β : Type} (f : α → β) (l : List α) :
    (l.map f).isEmpty = l.isEmpty := by
  cases l <;> rfl

theorem contains_true_iff_mem {α : Type} [BEq α] [LawfulBEq α] (l : List α) (a : α) :
    l.contains a = true ↔ a ∈ l := by
  rw [List.contains_iff_exists_mem_beq]
  constructor
  · rintro ⟨b, hb, hab⟩
    rw [eq_of_beq hab]
    exact hb
  · intro h
    exact ⟨a, h, by simp⟩

theorem assoc_key_nodup_eq {β : Type _} :
    ∀ (l : List (String × β)) (k : String) (a b : β),
      (l.map (fun p => p.1)).Nodup → (k, a) ∈ l → (k, b) ∈ l → a = b := by
  intro l
  induction l with
  | nil =>
    intro k a b _ ha _
    cases ha
  | cons p ps ih =>
    intro k a b hnd ha hb
    rw [List.map_cons, List.nodup_cons] at hnd
    rcases List.mem_cons.mp ha with h1 | h1
    · rcases List.mem_cons.mp hb with h2 | h2
      · have h3 : ((k, a) : String × β) = (k, b) := h1.trans h2.symm
        injection h3 with h4 h5
      · exfalso
        apply hnd.1
        have hk : p.1 = k := by rw [← h1]
        rw [hk]
        simpa using List.mem_map_of_mem (fun q : String × β => q.1) h2
    · rcases List.mem_cons.mp hb with h2 | h2
      · exfalso
        apply hnd.1
        have hk : p.1 = k := by rw [← h2]
        rw [hk]
        simpa using List.mem_map_of_mem (fun q : String × β => q.1) h1
      · exact ih k a b hnd.2 h1 h2

/- What a successful `report` run printed, independently of which branch ran:
its per-partition lines are exactly the scored partitions in dict order, and
the no-labels notice fired exactly when no partition was scored. -/
theorem report_ok_components
    (precision : List Val → List Int → ℚ) (test_size : Nat)
    (splits : List (String × TransformedSplit)) (r : ReportOut)
    (hr : report precision test_size splits = Except.ok r) :
    r.lines = (splits.filter
        (fun p => !(p.2.target.returnQuantity.contains Val.nan))).map
        (fun p => (p.1, precision p.2.target.returnQuantity p.2.target.prediction,
                   p.2.target.returnQuantity.length)) ∧
    r.noLabelsNotice = (splits.filter
        (fun p => !(p.2.target.returnQuantity.contains Val.nan))).isEmpty := by
  simp only [report] at hr
  split at hr
  case isTrue hemp =>
    have h1 := Except.ok.inj hr
    rw [← h1]
    rw [isEmpty_map] at hemp
    exact ⟨rfl, hemp.symm⟩
  case isFalse hemp =>
    cases hmul : npMultiply
        ((splits.filter (fun p => !(p.2.target.returnQuantity.contains Val.nan))).map
          (fun p => precision p.2.target.returnQuantity p.2.target.prediction))
        (splits.map (fun p =>
          ((p.2.target.returnQuantity.length : ℚ) / (test_size : ℚ)))) with
    | error e =>
      rw [hmul] at hr
      simp [Except.map] at hr
    | ok m =>
      rw [hmul] at hr
      simp only [Except.map] at hr
      have h1 := Except.ok.inj hr
      rw [← h1]
      rw [isEmpty_map] at hemp
      simp only [Bool.not_eq_true] at hemp
      exact ⟨rfl, hemp.symm⟩

/-- C6 (amended): a partition whose true-label column contains any missing
value is excluded from scoring — no precision is computed and no per-partition
line is printed for its key; there is no per-key notice: the global "no
evaluation labels" notice is printed exactly when no partition at all is
scorable.  (The excluded partition's row count still enters the weight vector
the scored precisions are multiplied against.) -/
theorem report_excludes_unscored_partitions
    (precision : List Val → List Int → ℚ) (test_size : Nat)
    (splits : List (String × TransformedSplit)) (k : String) (s : TransformedSplit)
    (r : ReportOut)
    (hmem : (k, s) ∈ splits) (hnan : Val.nan ∈ s.target.returnQuantity)
    (hkeys : (splits.map (fun p => p.1)).Nodup)
    (hr : report precision test_size splits = Except.ok r) :
    (∀ l ∈ r.lines, l.1 ≠ k) ∧
    (r.noLabelsNotice = true ↔ ∀ p ∈ splits, Val.nan ∈ p.2.target.returnQuantity) := by
  obtain ⟨hlines, hnotice⟩ := report_ok_components precision test_size splits r hr
  constructor
  · intro l hl
    rw [hlines] at hl
    obtain ⟨p, hp, rfl⟩ := List.mem_map.mp hl
    intro hkk
    have hpmem := (List.mem_filter.mp hp).1
    have hpf := (List.mem_filter.mp hp).2
    have hps : (k, p.2) ∈ splits := by
      rw [← hkk]
      exact hpmem
    have hps2 := assoc_key_nodup_eq splits k p.2 s hkeys hps hmem
    rw [hps2] at hpf
    have hc : s.target.returnQuantity.contains Val.nan = true :=
      (contains_true_iff_mem _ _).mpr hnan
    rw [hc] at hpf
    simp at hpf
  · rw [hnotice, List.isEmpty_iff, List.filter_eq_nil_iff]
    constructor
    · intro h p hp
      have h2 := h p hp
      cases hb : p.2.target.returnQuantity.contains Val.nan with
      | true => exact (contains_true_iff_mem _ _).mp hb
      | false => exact absurd (by rw [hb]; rfl) h2
    · intro h p hp hcontra
      have hc := (contains_true_iff_mem _ _).mpr (h p hp)
      rw [hc] at hcontra
      simp at hcontra

/-- C1: evaluation of `report` on a run over a 10-row test set split into an
unscorable partition of 6 rows (all labels NaN) and a scored partition of 4
rows with precision 1/2.  The scored-precision array has length one and
broadcasts against the weight vector of BOTH partitions, so the printed
overall is (1/2)·(6/10) + (1/2)·(4/10) = 1/2 — not the claimed weighted sum
over scored partitions only, (1/2)·(4/10) = 1/5. -/
theorem report_misweights_with_unscored_partition :
    report precisionEx 10 [("kkkk", splitA1), ("kkku", splitB1)]
      = Except.ok ⟨[("kkku", (1 : ℚ)/2, 4)], some ((1 : ℚ)/2), false⟩ ∧
    ((1 : ℚ)/2 ≠ ((1 : ℚ)/2) * ((4 : ℚ)/(10 : ℚ))) := by
  constructor
  · simp [report, precisionEx, splitA1, splitB1, mkTargetSplit, npMultiply, Except.map]
    norm_num
  · norm_num

/-- C6 counterexample: with one unscorable partition (key `kkkk`, 3 NaN
labels) and one scored partition (key `kkku`, 7 rows, precision 1) of a 10-row
test set, `report` prints no notice at all for the excluded key (the global
no-labels notice does not fire because a scorable partition exists), and the
excluded partition does not contribute zero weight: the printed overall is
1·(3/10) + 1·(7/10) = 1 rather than 1·(7/10). -/
theorem report_no_per_key_notice :
    Val.nan ∈ splitA2.target.returnQuantity ∧
    report precisionEx 10 [("kkkk", splitA2), ("kkku", splitB2)]
      = Except.ok ⟨[("kkku", 1, 7)], some 1, false⟩ ∧
    (1 : ℚ) ≠ 1 * ((7 : ℚ) / (10 : ℚ)) := by
  refine ⟨by simp [splitA2, mkTargetSplit], ?_, by norm_num⟩
  simp [report, precisionEx, splitA2, splitB2, mkTargetSplit, npMultiply, Except.map]
  norm_num

/-- Witness applying the C6 theorem at a concrete input. -/
theorem report_excludes_unscored_partitions_witness :
    (∀ l ∈ (⟨[], none, true⟩ : ReportOut).lines, l.1 ≠ "kkkk") ∧
    ((⟨[], none, true⟩ : ReportOut).noLabelsNotice = true ↔
      ∀ p ∈ [("kkkk", splitA2)], Val.nan ∈ p.2.target.returnQuantity) :=
  report_excludes_unscored_partitions precisionEx 10 [("kkkk", splitA2)] "kkkk" splitA2
    ⟨[], none, true⟩ (List.mem_cons_self _ _) (by simp [splitA2, mkTargetSplit])
    (by simp) rfl

theorem findIdx?_some_lt {α : Type} (p : α → Bool) (l : List α) (i : Nat)
    (h : l.findIdx? p = some i) : i < l.length :=
  (List.findIdx?_eq_some_iff_findIdx_eq.mp h).1

theorem findIdx_name_none (f : Frame) (c : String) (hc : c ∉ f.names) :
    f.header.findIdx? (fun h => h.name == c) = none := by
  rw [List.findIdx?_eq_none_iff]
  intro x hx
  have hne : x.name ≠ c :=
    fun he => hc (he ▸ List.mem_map_of_mem (fun h => h.name) hx)
  simpa using hne

theorem findIdx_name_isSome (f : Frame) (c : String) (hc : c ∈ f.names) :
    ∃ i, f.header.findIdx? (fun h => h.name == c) = some i ∧ i < f.header.length := by
  cases hx : f.header.findIdx? (fun h => h.name == c) with
  | some i => exact ⟨i, rfl, findIdx?_some_lt _ _ _ hx⟩
  | none =>
    exfalso
    rw [List.findIdx?_eq_none_iff] at hx
    obtain ⟨h, hh, hname⟩ := List.mem_map.mp hc
    have hfalse := hx h hh
    rw [hname] at hfalse
    simp at hfalse

theorem findIdx?_name_append_left (hdr extra : List Column) (c : String) (i : Nat)
    (h : hdr.findIdx? (fun h => h.name == c) = some i) :
    (hdr ++ extra).findIdx? (fun h => h.name == c) = some i := by
  rw [List.findIdx?_append, h]
  rfl

theorem getD_append_left' {α : Type} (l l' : List α) (i : Nat) (d : α)
    (h : i < l.length) :
    (l ++ l').getD i d = l.getD i d := by
  rw [List.getD_eq_getElem?_getD, List.getD_eq_getElem?_getD, List.getElem?_append_left h]

/-- C10 (amended): `dump_results` attaches the integer-cast predictions and
the confidences onto the ensemble's stored original test frame itself, not a
copy: after the export the stored test frame has gained `prediction` and
`confidence` columns (its original columns and their values are untouched),
so the stored frame is changed by the call. -/
theorem dump_results_mutates_stored_test (e : Ensemble)
    (hwf : ∀ r ∈ e.test.rows, r.length = e.test.header.length)
    (hp : "prediction" ∉ e.test.names) (hc : "confidence" ∉ e.test.names) :
    ((dump_results e).2.test.names = e.test.names ++ ["prediction", "confidence"]) ∧
    (∀ c, c ∈ e.test.names → (dump_results e).2.test.colVals c = e.test.colVals c) ∧
    ((dump_results e).2.test ≠ e.test) := by
  have hpn : e.test.header.findIdx? (fun h => h.name == "prediction") = none :=
    findIdx_name_none e.test "prediction" hp
  have ht1 : e.test.setCol "prediction" Dtype.intT
      ((((e.splits.map (fun p => p.2.target.prediction)).flatten)).map (fun n => Val.int n))
      = ⟨e.test.header ++ [⟨"prediction", Dtype.intT⟩],
         e.test.rows.mapIdx (fun j r => r ++
           [(((e.splits.map (fun p => p.2.target.prediction)).flatten).map
               (fun n => Val.int n)).getD j Val.nan])⟩ := by
    simp [Frame.setCol, hpn]
  have hct1 : "confidence" ∉ (e.test.setCol "prediction" Dtype.intT
      ((((e.splits.map (fun p => p.2.target.prediction)).flatten)).map
        (fun n => Val.int n))).names := by
    rw [ht1]
    simp only [Frame.names, List.map_append, List.mem_append]
    rintro (h | h)
    · exact hc h
    · simp at h
  have hcn : (e.test.setCol "prediction" Dtype.intT
      ((((e.splits.map (fun p => p.2.target.prediction)).flatten)).map
        (fun n => Val.int n))).header.findIdx? (fun h => h.name == "confidence") = none :=
    findIdx_name_none _ "confidence" hct1
  have ht2 : (dump_results e).2.test
      = ⟨(e.test.header ++ [⟨"prediction", Dtype.intT⟩]) ++ [⟨"confidence", Dtype.float⟩],
         (e.test.rows.mapIdx (fun j r => r ++
           [(((e.splits.map (fun p => p.2.target.prediction)).flatten).map
               (fun n => Val.int n)).getD j Val.nan])).mapIdx (fun j r => r ++
           [((e.splits.map (fun p => p.2.target.confidence)).flatten).getD j Val.nan])⟩ := by
    simp only [dump_results]
    rw [ht1] at hcn ⊢
    simp [Frame.setCol, hcn]
  refine ⟨?_, ?_, ?_⟩
  · rw [ht2]
    simp [Frame.names]
  · intro c hcmem
    obtain ⟨i, hfi, hilt⟩ := findIdx_name_isSome e.test c hcmem
    have hfi2 : ((e.test.header ++ [Column.mk "prediction" Dtype.intT])
        ++ [Column.mk "confidence" Dtype.float]).findIdx? (fun h => h.name == c) = some i :=
      findIdx?_name_append_left _ _ c i (findIdx?_name_append_left _ _ c i hfi)
    rw [ht2]
    apply List.ext_getElem
    · simp [Frame.colVals]
    · intro j h1 h2
      simp only [Frame.colVals, Frame.cell, List.getElem_map, List.getElem_mapIdx, hfi2, hfi]
      have hjlen : j < e.test.rows.length := by
        simpa [Frame.colVals] using h2
      have hrowlen : e.test.rows[j].length = e.test.header.length :=
        hwf e.test.rows[j] (List.getElem_mem hjlen)
      rw [getD_append_left', getD_append_left']
      · omega
      · rw [List.length_append]
        omega
  · intro heq
    have hlen := congrArg (fun f => f.names.length) heq
    rw [ht2] at hlen
    simp [Frame.names] at hlen

/-- C10 counterexample: after `dump_results` the ensemble's stored original
test frame is NOT unchanged — it has gained a `prediction` column. -/
theorem dump_results_changes_stored_test :
    "prediction" ∉ eEx10.test.names ∧
    "prediction" ∈ (dump_results eEx10).2.test.names ∧
    (dump_results eEx10).2.test ≠ eEx10.test := by decide

/-- Witness applying the C10 theorem at a concrete input. -/
theorem dump_results_mutates_stored_test_witness :
    ((dump_results eEx10).2.test.names
      = eEx10.test.names ++ ["prediction", "confidence"]) ∧
    ((dump_results eEx10).2.test.colVals "orderID" = eEx10.test.colVals "orderID") ∧
    ((dump_results eEx10).2.test ≠ eEx10.test) :=
  ⟨(dump_results_mutates_stored_test eEx10 (by decide) (by decide) (by decide)).1,
   (dump_results_mutates_stored_test eEx10 (by decide) (by decide) (by decide)).2.1
     "orderID" (by decide),
   (dump_results_mutates_stored_test eEx10 (by decide) (by decide) (by decide)).2.2⟩
